import Mathlib

/-!
# Verification of `pdf_table_extractor.py`

A shallow embedding of the PDF table extraction tool: the table sanitizer
(`dropna(how='all')` on rows then columns), the backend orchestration of
`SimplePDFTableExtractor.extract_tables`, the workbook writer
`save_to_excel`, the dependency prober `check_and_install_dependencies`,
and the CLI driver `main`, together with theorems settling the specified
properties.
-/

set_option maxHeartbeats 1000000
set_option maxRecDepth 8192

namespace PDFX

/-- A present Python cell value as the tool meets it: text from the raw
extractions, or a number where pandas dtype inference produced one (tabula
columns that parse as numeric).  Only its truthiness and its printed form
matter to this program; integers carry the numeric case. -/
inductive PyVal
  | text (s : String)
  | intv (n : Int)
deriving DecidableEq

/-- `str(value)` for a present cell value. -/
def pyStr : PyVal → String
  | PyVal.text s => s
  | PyVal.intv n => toString n

/-- Python truthiness of a present cell value: the empty string and the
number zero are falsy. -/
def pyTruthy : PyVal → Bool
  | PyVal.text s => !(s == "")
  | PyVal.intv n => !(n == 0)

/-- A cell of an extracted table: `none` models a missing value (pandas NaN),
`some v` a present value (the empty string and zero are present values, as in
pandas, where neither is NaN). -/
abbrev Cell := Option PyVal

/-- A table is an ordered list of rows, each an ordered list of cells. -/
abbrev Table := List (List Cell)

/-- A row is entirely empty when every cell is missing: the row predicate of
`dropna(how='all')`. -/
def rowEmpty (r : List Cell) : Bool := r.all (fun c => c.isNone)

/-- `table.dropna(how='all')`: drop the rows whose cells are all missing. -/
def dropEmptyRows (t : Table) : Table := t.filter (fun r => !rowEmpty r)

/-- The cell of row `r` in column `j` (missing when the row is shorter). -/
def cellAt (r : List Cell) (j : Nat) : Cell := r.getD j none

/-- Column `j` holds a present value somewhere in the table. -/
def colNonempty (t : Table) (j : Nat) : Bool := t.any (fun r => (cellAt r j).isSome)

/-- Keep the entries of a list whose position satisfies `p`, positions counted
from `n`. -/
def filterRowFrom {α : Type} (p : Nat → Bool) : Nat → List α → List α
  | _, [] => []
  | j, c :: cs => if p j then c :: filterRowFrom p (j + 1) cs else filterRowFrom p (j + 1) cs

/-- `table.dropna(axis=1, how='all')`: in every row keep exactly the cells
whose column holds a present value somewhere in the table. -/
def dropEmptyCols (t : Table) : Table := t.map (fun r => filterRowFrom (colNonempty t) 0 r)

/-- Number of columns of a table (the widest row). -/
def numCols (t : Table) : Nat := t.foldr (fun r m => max r.length m) 0

/-- The sanitizer of the tool, as applied at extraction time (lines 66, 82,
102) and again before writing (line 122): drop all-empty rows, then all-empty
columns.  `reset_index(drop=True)` is the identity on a positional list of
rows, so it does not appear. -/
def sanitizeTable (t : Table) : Table := dropEmptyCols (dropEmptyRows t)

/-- Rectangularity: every row has the table's column count.  This is an
invariant of pandas `DataFrame`s, whose rows all share the column axis. -/
def Rect (t : Table) : Prop := ∀ r ∈ t, r.length = numCols t

/-- Every row of the table holds a present value. -/
def allRowsNonempty (t : Table) : Bool := t.all (fun r => r.any (fun c => c.isSome))

/-- Every column of the table holds a present value. -/
def allColsNonempty (t : Table) : Bool := (List.range (numCols t)).all (fun j => colNonempty t j)

/-- A pandas `DataFrame` as the tool handles it: column labels plus the grid
of data rows.  Labels are values too: tabula yields parsed header text,
while camelot and raw-grid frames carry the integer positions of a
`RangeIndex`. -/
structure DF where
  cols : List PyVal
  rows : Table
deriving DecidableEq

/-- `table.dropna(how='all').dropna(axis=1, how='all')` on a `DataFrame`:
row trimming first, then the columns that are entirely missing in the
row-trimmed data are removed together with their labels. -/
def dropnaDF (d : DF) : DF :=
  { cols := filterRowFrom (colNonempty (dropEmptyRows d.rows)) 0 d.cols
    rows := dropEmptyCols (dropEmptyRows d.rows) }

/-- The sanitizer as applied by `save_to_excel` (line 122):
`dropna(how='all').dropna(axis=1, how='all').reset_index(drop=True)`.
`reset_index(drop=True)` renumbers the row index contiguously from zero,
the identity on a positional list of rows. -/
def sanitizeDF (d : DF) : DF := dropnaDF d

/-- `DataFrame.empty`: true when either axis has length zero. -/
def dfEmpty (d : DF) : Bool := d.rows.isEmpty || d.cols.isEmpty

/-- The three extraction backends, in the fixed fallback order. -/
inductive Backend
  | tabula
  | camelot
  | pdfplumber
deriving DecidableEq

/-- The `--method` selection. -/
inductive Method
  | auto
  | tabula
  | camelot
  | pdfplumber
deriving DecidableEq

/-- One pdfplumber interaction.  The source (lines 96-105) calls the library
per page inside one `try`, appending results as the loop runs, so an
exception can arrive after tables were already kept: `pages` holds the raw
grid lists of the pages whose `extract_tables()` call succeeded, in document
order, and `raised` tells whether an exception then stopped the processing
(at `pdfplumber.open` when `pages` is empty, otherwise at the next page). -/
structure PlumberRun where
  pages : List (List Table)
  raised : Bool
deriving DecidableEq

/-- What the three external libraries do for one PDF: `tabula.read_pdf` and
`camelot.read_pdf` are single calls that either yield their lists of
`DataFrame`s or raise (`Except.error`); pdfplumber is a per-page interaction
that can fail part-way through. -/
structure PDFEnv where
  tabulaRes : Except String (List DF)
  camelotRes : Except String (List DF)
  plumberRes : PlumberRun

/-- The tabula loop (lines 64-69): keep each non-`empty` table that still has
at least one row after `dropna` trimming. -/
def processTabula : List DF → List DF
  | [] => []
  | t :: rest =>
    if !dfEmpty t then
      if 0 < (dropnaDF t).rows.length then dropnaDF t :: processTabula rest
      else processTabula rest
    else processTabula rest

/-- The camelot loop (lines 81-85): keep each `table.df` that has more than
one row after `dropna` trimming. -/
def processCamelot : List DF → List DF
  | [] => []
  | t :: rest =>
    if 1 < (dropnaDF t).rows.length then dropnaDF t :: processCamelot rest
    else processCamelot rest

/-- `pd.DataFrame(table_data)`: the raw text grid as a frame whose column
labels are the integer positions of the default `RangeIndex`. -/
def dfOfRaw (td : Table) : DF :=
  { cols := (List.range (numCols td)).map (fun j => PyVal.intv j), rows := td }

/-- The pdfplumber inner loop (lines 99-105): for each raw grid that is
non-empty with more than one row, build a frame, trim it, keep it if more
than one row remains. -/
def processPlumberPage : List Table → List DF
  | [] => []
  | td :: rest =>
    if td ≠ [] ∧ 1 < td.length then
      if 1 < (dropnaDF (dfOfRaw td)).rows.length then
        dropnaDF (dfOfRaw td) :: processPlumberPage rest
      else processPlumberPage rest
    else processPlumberPage rest

/-- The pdfplumber page loop (lines 97-105), pages in order. -/
def processPlumber (pages : List (List Table)) : List DF :=
  (pages.map processPlumberPage).flatten

/-- One call of `extract_tables`: the returned list, the value of
`self.tables` after the call, and the backends that were invoked, in order. -/
structure ExtractOutcome where
  result : List DF
  stored : List DF
  invoked : List Backend
deriving DecidableEq

/-- Method 3 block (lines 92-110): pdfplumber never early-returns; its
`except` (lines 106-107) only prints a warning, keeping whatever the loop
already appended from the successfully processed pages, and the block always
falls through to `self.tables = all_tables; return all_tables`. -/
def stage3 (m : Method) (env : PDFEnv) (all2 : List DF) (inv2 : List Backend) :
    ExtractOutcome :=
  if (m = Method.auto ∨ m = Method.pdfplumber) ∧ all2 = [] then
    ⟨all2 ++ processPlumber env.plumberRes.pages,
     all2 ++ processPlumber env.plumberRes.pages,
     inv2 ++ [Backend.pdfplumber]⟩
  else ⟨all2, all2, inv2⟩

/-- Method 2 block (lines 76-89): camelot runs when the method allows it and
the accumulated list is still empty; on an exception with a forced camelot
method the call returns `[]` without touching `self.tables`. -/
def stage2 (m : Method) (env : PDFEnv) (stored0 all1 : List DF) (inv1 : List Backend) :
    ExtractOutcome :=
  if (m = Method.auto ∨ m = Method.camelot) ∧ all1 = [] then
    match env.camelotRes with
    | Except.ok ts => stage3 m env (all1 ++ processCamelot ts) (inv1 ++ [Backend.camelot])
    | Except.error _ =>
      if m = Method.camelot then ⟨[], stored0, inv1 ++ [Backend.camelot]⟩
      else stage3 m env all1 (inv1 ++ [Backend.camelot])
  else stage3 m env all1 inv1

/-- `SimplePDFTableExtractor.extract_tables` (lines 49-110), given the
environment of library behaviours and the prior value of `self.tables`. -/
def extractTables (m : Method) (env : PDFEnv) (stored0 : List DF) : ExtractOutcome :=
  if m = Method.auto ∨ m = Method.tabula then
    match env.tabulaRes with
    | Except.ok ts => stage2 m env stored0 (processTabula ts) [Backend.tabula]
    | Except.error _ =>
      if m = Method.tabula then ⟨[], stored0, [Backend.tabula]⟩
      else stage2 m env stored0 [] [Backend.tabula]
  else stage2 m env stored0 [] []

/-- Whether a backend's extraction raises in this environment. -/
def backendRaises (env : PDFEnv) : Backend → Bool
  | Backend.tabula => match env.tabulaRes with | Except.ok _ => false | Except.error _ => true
  | Backend.camelot => match env.camelotRes with | Except.ok _ => false | Except.error _ => true
  | Backend.pdfplumber => env.plumberRes.raised

/-- What the tabula block appends to `all_tables` in an `auto` run. -/
def tabulaContribution (env : PDFEnv) : List DF :=
  match env.tabulaRes with
  | Except.ok ts => processTabula ts
  | Except.error _ => []

/-- What the camelot block would append to an empty `all_tables`. -/
def camelotContribution (env : PDFEnv) : List DF :=
  match env.camelotRes with
  | Except.ok ts => processCamelot ts
  | Except.error _ => []

/-! ## The workbook writer -/

/-- Printed length of a worksheet cell, `len(str(cell.value))`: a missing
value prints as nothing. -/
def displayLen : Cell → Nat
  | none => 0
  | some v => (pyStr v).length

/-- Python truthiness of `cell.value`: `None`, the empty string and the
number zero are falsy. -/
def cellTruthy : Cell → Bool
  | none => false
  | some v => pyTruthy v

/-- The writer's running maximum (lines 128-132): only truthy cell values
update `max_length`. -/
def codeColMax (cells : List Cell) : Nat :=
  cells.foldl (fun a c => if cellTruthy c then max a (displayLen c) else a) 0

/-- The maximum printed-text length among a column's cells. -/
def specColMax (cells : List Cell) : Nat :=
  cells.foldl (fun a c => max a (displayLen c)) 0

/-- The maximum printed-text length among a column's Python-truthy cells. -/
def truthyColMax (cells : List Cell) : Nat :=
  (cells.filter cellTruthy).foldl (fun a c => max a (displayLen c)) 0

/-- The column holds no numeric cell: every value is missing or text. -/
def textOnly (cells : List Cell) : Bool :=
  cells.all (fun c => match c with
    | some (PyVal.intv _) => false
    | _ => true)

/-- The cells of column `j` of a worksheet grid, top to bottom. -/
def colCells (grid : List (List Cell)) (j : Nat) : List Cell :=
  grid.map (fun r => r.getD j none)

/-- `f"Table_{i+1}"[:31]` for the 0-based position `i`. -/
def sheetName (i : Nat) : String := ("Table_" ++ toString (i + 1)).take 31

/-- One written worksheet: its name, its cell grid (first row first), and the
display widths set for its columns, left to right. -/
structure Sheet where
  name : String
  grid : List (List Cell)
  colWidths : List Nat
deriving DecidableEq

/-- Writing one table (lines 120-133): re-sanitize, then
`to_excel(..., index=False)` writes the column labels as the first worksheet
row (pandas default `header=True`) followed by the data rows, and every
column's width is set to the running maximum plus 2, capped at 50. -/
def writeSheet (i : Nat) (df : DF) : Sheet :=
  let s := sanitizeDF df
  let grid := (s.cols.map (fun c => some c)) :: s.rows
  { name := sheetName i
    grid := grid
    colWidths := (List.range (numCols grid)).map
      (fun j => min (codeColMax (colCells grid j) + 2) 50) }

/-- Outcome of `save_to_excel`: no tables (returns `False` before opening the
file), a write failure (returns `False`), or a successful write. -/
inductive SaveResult
  | noTables
  | failed
  | saved (sheets : List Sheet)
deriving DecidableEq

/-- The boolean `save_to_excel` returns. -/
def saveReturn : SaveResult → Bool
  | SaveResult.noTables => false
  | SaveResult.failed => false
  | SaveResult.saved _ => true

/-- Whether the call opened the output file at all: the empty-table early
return happens before `pd.ExcelWriter` is constructed. -/
def touchesFile : SaveResult → Bool
  | SaveResult.noTables => false
  | SaveResult.failed => true
  | SaveResult.saved _ => true

/-- `save_to_excel` (lines 112-140) over the stored tables, with `writeOk`
telling whether the file write raises. -/
def saveToExcel (writeOk : Bool) (dfs : List DF) : SaveResult :=
  if dfs.isEmpty then SaveResult.noTables
  else if writeOk then SaveResult.saved (dfs.enum.map (fun p => writeSheet p.1 p.2))
  else SaveResult.failed

/-! ## Dependency prober and CLI driver -/

/-- Which of the five modules import successfully. -/
structure Deps where
  pandas : Bool
  openpyxl : Bool
  tabula : Bool
  camelot : Bool
  pdfplumber : Bool
deriving DecidableEq

/-- The module-name / package-name table of `check_and_install_dependencies`
(lines 18-24). -/
def modulesTable : List (String × String) :=
  [("pandas", "pandas"), ("openpyxl", "openpyxl"), ("tabula", "tabula-py"),
   ("camelot", "camelot-py"), ("pdfplumber", "pdfplumber")]

/-- Whether `__import__(mod)` succeeds. -/
def depAvailable (d : Deps) (m : String) : Bool :=
  if m = "pandas" then d.pandas
  else if m = "openpyxl" then d.openpyxl
  else if m = "tabula" then d.tabula
  else if m = "camelot" then d.camelot
  else if m = "pdfplumber" then d.pdfplumber
  else false

/-- What the prober printed and did. -/
structure DepReport where
  statusLines : List String
  missing : List String
  suggestions : List String
  exitCode : Option Nat
deriving DecidableEq

/-- `check_and_install_dependencies` (lines 15-40): each module prints a
success line or joins the missing list; any missing package triggers the
aggregated message, two installation suggestions and `sys.exit(1)`. -/
def checkDependencies (d : Deps) : DepReport :=
  let probe := modulesTable.foldl
    (fun (acc : List String × List String) mp =>
      if depAvailable d mp.1 then (acc.1 ++ ["✓ " ++ mp.2 ++ " available"], acc.2)
      else (acc.1, acc.2 ++ [mp.2]))
    ([], [])
  if probe.2 = [] then ⟨probe.1, [], [], none⟩
  else
    ⟨probe.1, probe.2,
     ["pip3 install --user " ++ String.intercalate " " probe.2,
      "Or install individually: pip3 install --user " ++ probe.2.headD ""],
     some 1⟩

/-- One CLI run's environment. -/
structure MainEnv where
  deps : Deps
  fileExists : Bool
  method : Method
  pdfEnv : PDFEnv
  writeOk : Bool

/-- What `main` did: the process exit status, whether the try-another-method
suggestion was printed, the writer outcome if reached, and whether extraction
ran at all. -/
structure MainOutcome where
  exitCode : Nat
  printedSuggestion : Bool
  saveRes : Option SaveResult
  extractionRan : Bool
deriving DecidableEq

/-- `main` (lines 144-182): dependency check, file existence check, fresh
extractor (`self.tables = []`), extraction, `sys.exit(1)` with the suggestion
when no table was found, otherwise a save whose outcome does not change the
implicit exit status 0. -/
def mainRun (e : MainEnv) : MainOutcome :=
  if (checkDependencies e.deps).missing ≠ [] then ⟨1, false, none, false⟩
  else if e.fileExists = false then ⟨1, false, none, false⟩
  else
    let tables := (extractTables e.method e.pdfEnv []).result
    if tables = [] then ⟨1, true, none, true⟩
    else ⟨0, false, some (saveToExcel e.writeOk tables), true⟩

/-! ## Concrete inputs used to instantiate the theorems -/

/-- A concrete rectangular table with an all-empty middle row. -/
def tEx : Table :=
  [[some (PyVal.text "a"), none], [none, none], [none, some (PyVal.text "b")]]

/-- A concrete extracted frame. -/
def dfEx : DF :=
  ⟨[PyVal.text "h1", PyVal.text "h2"],
   [[some (PyVal.text "x"), none], [some (PyVal.text "y"), some (PyVal.text "z")]]⟩

/-- An environment where only tabula succeeds, yielding one table. -/
def envOkTabula : PDFEnv :=
  ⟨Except.ok [dfEx], Except.error "camelot down", ⟨[], false⟩⟩

/-- An environment where every backend raises, pdfplumber already at
`pdfplumber.open` (no page was processed). -/
def envAllFail : PDFEnv :=
  ⟨Except.error "tabula down", Except.error "camelot down", ⟨[], true⟩⟩

/-- A frame with range-style column labels, as camelot and pdfplumber
produce. -/
def dfHeaderEx : DF :=
  ⟨[PyVal.text "0", PyVal.text "1"], [[some (PyVal.text "a"), some (PyVal.text "b")]]⟩

/-- A three-row raw grid pdfplumber extracts from a first page. -/
def gridEx : Table :=
  [[some (PyVal.text "a")], [some (PyVal.text "b")], [some (PyVal.text "c")]]

/-- A forced-pdfplumber environment where page 1 is processed and kept and an
exception then stops the loop at page 2. -/
def envPlumberPartial : PDFEnv :=
  ⟨Except.error "tabula down", Except.error "camelot down", ⟨[[gridEx]], true⟩⟩

/-- A single-column frame whose `RangeIndex` label and only data cell are the
number zero, as tabula's dtype inference can produce: both cells are falsy
for `if cell.value:` yet print as "0" with length one. -/
def dfZeroEx : DF := ⟨[PyVal.intv 0], [[some (PyVal.intv 0)]]⟩

/-- All modules importable except tabula. -/
def depsMissingTabula : Deps := ⟨true, true, false, true, true⟩

/-- All five modules importable. -/
def depsAllPresent : Deps := ⟨true, true, true, true, true⟩

/-- A run that finds one table through tabula but cannot write the output. -/
def envMainEx : MainEnv := ⟨depsAllPresent, true, Method.tabula, envOkTabula, false⟩

/-! ## Basic lemmas about the sanitizer -/

theorem filterRowFrom_eq (p : Nat → Bool) :
    ∀ (r : List Cell) (n : Nat), filterRowFrom p n r =
      ((List.range r.length).filter (fun i => p (n + i))).map (fun i => r.getD i none)
  | [], n => by simp [filterRowFrom]
  | c :: cs, n => by
    have ih := filterRowFrom_eq p cs (n + 1)
    simp only [filterRowFrom, List.length_cons, List.range_succ_eq_map, List.filter_cons,
      List.filter_map, Function.comp_def, List.map_map, Nat.add_zero, Nat.add_succ, Nat.succ_add]
    simp only [Nat.add_succ, Nat.succ_add] at ih
    by_cases h : p n
    · simp [h, ih, List.map_map, Function.comp_def, Nat.succ_eq_add_one,
        List.getD_cons_succ, List.getD_cons_zero]
    · simp [h, ih, List.map_map, Function.comp_def, Nat.succ_eq_add_one,
        List.getD_cons_succ]

theorem map_getD_range :
    ∀ r : List Cell, (List.range r.length).map (fun i => r.getD i none) = r
  | [] => by simp
  | c :: cs => by
    have ih := map_getD_range cs
    simp only [List.length_cons, List.range_succ_eq_map, List.map_cons, List.map_map,
      Function.comp_def, List.getD_cons_succ, List.getD_cons_zero, ih]

/-- The column indices the sanitizer keeps: those below the width that hold a
present value in the row-trimmed table. -/
def sanIdx (t : Table) : List Nat :=
  (List.range (numCols t)).filter (fun j => colNonempty (dropEmptyRows t) j)

theorem numCols_le {t : Table} {L : Nat} (h : ∀ r ∈ t, r.length ≤ L) : numCols t ≤ L := by
  induction t with
  | nil => simp [numCols]
  | cons r rs ih =>
    simp only [numCols, List.foldr_cons] at *
    exact max_le (h r (by simp)) (ih (fun s hs => h s (by simp [hs])))

theorem mem_dropEmptyRows_length {t : Table} (ht : Rect t) {r : List Cell}
    (hr : r ∈ dropEmptyRows t) : r.length = numCols t :=
  ht r (List.mem_of_mem_filter hr)

theorem mem_dropEmptyRows_not_empty {t : Table} {r : List Cell}
    (hr : r ∈ dropEmptyRows t) : rowEmpty r = false := by
  have := List.of_mem_filter hr
  simpa using this

/-- On a rectangular table the sanitizer maps every surviving row over the one
list of kept column indices. -/
theorem sanitize_eq {t : Table} (ht : Rect t) :
    sanitizeTable t =
      (dropEmptyRows t).map (fun r => (sanIdx t).map (fun i => r.getD i none)) := by
  unfold sanitizeTable dropEmptyCols
  apply List.map_congr_left
  intro r hr
  rw [filterRowFrom_eq, mem_dropEmptyRows_length ht hr]
  simp [sanIdx]

theorem rowEmpty_eq_false_iff {r : List Cell} :
    rowEmpty r = false ↔ ∃ j, j < r.length ∧ (r.getD j none).isSome = true := by
  constructor
  · intro h
    have h2 : ¬ (r.all (fun c => c.isNone) = true) := by simp [rowEmpty] at h; simp [h]
    simp only [List.all_eq_true] at h2
    push_neg at h2
    rcases h2 with ⟨c, hc, hcn⟩
    simp only [Bool.not_eq_true] at hcn
    rcases List.mem_iff_getElem.mp hc with ⟨j, hj, rfl⟩
    exact ⟨j, hj, by
      rw [List.getD_eq_getElem r none hj]
      simpa [Option.isSome_eq_isSome] using hcn⟩
  · rintro ⟨j, hj, hs⟩
    rcases Option.isSome_iff_exists.mp hs with ⟨s, hsome⟩
    have hmem : (some s : Cell) ∈ r := by
      rw [List.getD_eq_getElem r none hj] at hsome
      exact hsome ▸ List.getElem_mem hj
    have : ¬ (rowEmpty r = true) := by
      simp only [rowEmpty, List.all_eq_true]
      intro hall
      have := hall _ hmem
      simp at this
    simpa using this

/-- Any surviving row keeps at least one present cell: its witness column is a
kept index. -/
theorem sanitize_row_witness {t : Table} (ht : Rect t) {r : List Cell}
    (hr : r ∈ dropEmptyRows t) :
    ∃ j ∈ sanIdx t, (r.getD j none).isSome = true := by
  rcases rowEmpty_eq_false_iff.mp (mem_dropEmptyRows_not_empty hr) with ⟨j, hj, hs⟩
  refine ⟨j, ?_, hs⟩
  have hjw : j < numCols t := by
    have := mem_dropEmptyRows_length ht hr
    omega
  refine List.mem_filter.mpr ⟨List.mem_range.mpr hjw, ?_⟩
  exact List.any_eq_true.mpr ⟨r, hr, hs⟩

/-- Every row of a sanitized rectangular table holds a present value. -/
theorem sanitize_rows_nonempty {t : Table} (ht : Rect t) :
    ∀ r2 ∈ sanitizeTable t, ∃ c ∈ r2, c.isSome = true := by
  intro r2 hr2
  rw [sanitize_eq ht] at hr2
  rcases List.mem_map.mp hr2 with ⟨r, hr, rfl⟩
  rcases sanitize_row_witness ht hr with ⟨j, hjmem, hs⟩
  exact ⟨r.getD j none, List.mem_map.mpr ⟨j, hjmem, rfl⟩, hs⟩

/-- Every column position of a sanitized rectangular table holds a present
value in some row. -/
theorem sanitize_cols_nonempty {t : Table} (ht : Rect t) :
    ∀ j2, j2 < (sanIdx t).length → colNonempty (sanitizeTable t) j2 = true := by
  intro j2 hj2
  have hjmem : (sanIdx t).get ⟨j2, hj2⟩ ∈ sanIdx t := List.get_mem _ _ _
  have hcol : colNonempty (dropEmptyRows t) ((sanIdx t).get ⟨j2, hj2⟩) = true :=
    (List.mem_filter.mp hjmem).2
  rcases List.any_eq_true.mp hcol with ⟨rstar, hrstar, hsome⟩
  have hrow2 : (sanIdx t).map (fun i => rstar.getD i none) ∈ sanitizeTable t := by
    rw [sanitize_eq ht]
    exact List.mem_map.mpr ⟨rstar, hrstar, rfl⟩
  refine List.any_eq_true.mpr ⟨_, hrow2, ?_⟩
  have hget : cellAt ((sanIdx t).map (fun i => rstar.getD i none)) j2 =
      rstar.getD ((sanIdx t).get ⟨j2, hj2⟩) none := by
    unfold cellAt
    rw [List.getD_eq_getElem _ none (by simpa using hj2), List.getElem_map]
    simp [List.get_eq_getElem]
  rw [hget]
  exact hsome

theorem sanitize_row_length {t : Table} (ht : Rect t) {r2 : List Cell}
    (hr2 : r2 ∈ sanitizeTable t) : r2.length = (sanIdx t).length := by
  rw [sanitize_eq ht] at hr2
  rcases List.mem_map.mp hr2 with ⟨r, _, rfl⟩
  simp

/-- C2: the sanitizer (drop all-empty rows, then all-empty columns, then
reset the row index, which is the identity on positional rows) is idempotent:
for every (rectangular) table, applying it twice equals applying it once. -/
theorem sanitizeTable_idem {t : Table} (ht : Rect t) :
    sanitizeTable (sanitizeTable t) = sanitizeTable t := by
  have hrows : dropEmptyRows (sanitizeTable t) = sanitizeTable t := by
    apply List.filter_eq_self.mpr
    intro r2 hr2
    rcases sanitize_rows_nonempty ht r2 hr2 with ⟨c, hc, hcs⟩
    have : rowEmpty r2 = false := by
      rcases List.mem_iff_getElem.mp hc with ⟨j, hj, rfl⟩
      exact rowEmpty_eq_false_iff.mpr ⟨j, hj, by rw [List.getD_eq_getElem r2 none hj]; exact hcs⟩
    simp [this]
  rw [show sanitizeTable (sanitizeTable t)
        = dropEmptyCols (dropEmptyRows (sanitizeTable t)) from rfl, hrows]
  show (sanitizeTable t).map (fun r => filterRowFrom (colNonempty (sanitizeTable t)) 0 r)
      = sanitizeTable t
  have hcols : ∀ r2 ∈ sanitizeTable t,
      filterRowFrom (colNonempty (sanitizeTable t)) 0 r2 = r2 := by
    intro r2 hr2
    rw [filterRowFrom_eq]
    have hfix : (List.range r2.length).filter (fun i => colNonempty (sanitizeTable t) (0 + i)) =
        List.range r2.length := by
      apply List.filter_eq_self.mpr
      intro i hi
      have hilt : i < r2.length := List.mem_range.mp hi
      have : i < (sanIdx t).length := by
        rw [sanitize_row_length ht hr2] at hilt
        exact hilt
      simpa using sanitize_cols_nonempty ht i this
    rw [hfix, map_getD_range]
  calc (sanitizeTable t).map (fun r => filterRowFrom (colNonempty (sanitizeTable t)) 0 r)
      = (sanitizeTable t).map id := List.map_congr_left hcols
    _ = sanitizeTable t := List.map_id _

/-- Witness for C2 at a concrete table. -/
theorem sanitizeTable_idem_witness :
    sanitizeTable (sanitizeTable tEx) = sanitizeTable tEx :=
  sanitizeTable_idem (t := tEx) (by unfold Rect; decide)

/-! ## Invariants of the sanitized output and of kept tables -/

theorem mem_processTabula {ts : List DF} {d : DF} (h : d ∈ processTabula ts) :
    0 < d.rows.length := by
  induction ts with
  | nil => simp [processTabula] at h
  | cons t rest ih =>
    simp only [processTabula] at h
    split_ifs at h with h1 h2
    · rcases List.mem_cons.mp h with h3 | h3
      · subst h3; exact h2
      · exact ih h3
    · exact ih h
    · exact ih h

theorem mem_processCamelot {ts : List DF} {d : DF} (h : d ∈ processCamelot ts) :
    0 < d.rows.length := by
  induction ts with
  | nil => simp [processCamelot] at h
  | cons t rest ih =>
    simp only [processCamelot] at h
    split_ifs at h with h1
    · rcases List.mem_cons.mp h with h3 | h3
      · subst h3; omega
      · exact ih h3
    · exact ih h

theorem mem_processPlumberPage {ts : List Table} {d : DF} (h : d ∈ processPlumberPage ts) :
    0 < d.rows.length := by
  induction ts with
  | nil => simp [processPlumberPage] at h
  | cons td rest ih =>
    simp only [processPlumberPage] at h
    split_ifs at h with h1 h2
    · rcases List.mem_cons.mp h with h3 | h3
      · subst h3; omega
      · exact ih h3
    · exact ih h
    · exact ih h

theorem mem_processPlumber {pages : List (List Table)} {d : DF}
    (h : d ∈ processPlumber pages) : 0 < d.rows.length := by
  rcases List.mem_flatten.mp h with ⟨l, hl, hd⟩
  rcases List.mem_map.mp hl with ⟨pg, _, rfl⟩
  exact mem_processPlumberPage hd

theorem stage3_result_mem {m : Method} {env : PDFEnv} {all2 : List DF}
    {inv2 : List Backend} (hall : ∀ x ∈ all2, 0 < x.rows.length) :
    ∀ d ∈ (stage3 m env all2 inv2).result, 0 < d.rows.length := by
  intro d hd
  unfold stage3 at hd
  split_ifs at hd
  · rcases List.mem_append.mp hd with h | h
    · exact hall d h
    · exact mem_processPlumber h
  · exact hall d hd

theorem stage2_result_mem {m : Method} {env : PDFEnv} {stored0 all1 : List DF}
    {inv1 : List Backend} (hall : ∀ x ∈ all1, 0 < x.rows.length) :
    ∀ d ∈ (stage2 m env stored0 all1 inv1).result, 0 < d.rows.length := by
  intro d hd
  unfold stage2 at hd
  by_cases hg : (m = Method.auto ∨ m = Method.camelot) ∧ all1 = []
  · rw [if_pos hg] at hd
    cases hc : env.camelotRes with
    | ok ts =>
      rw [hc] at hd
      have hd2 : d ∈ (stage3 m env (all1 ++ processCamelot ts)
          (inv1 ++ [Backend.camelot])).result := hd
      refine stage3_result_mem ?_ d hd2
      intro x hx
      rcases List.mem_append.mp hx with h | h
      · exact hall x h
      · exact mem_processCamelot h
    | error msg =>
      rw [hc] at hd
      by_cases hm : m = Method.camelot
      · have hd2 : d ∈ (⟨[], stored0, inv1 ++ [Backend.camelot]⟩ : ExtractOutcome).result := by
          have hd3 : d ∈ (if m = Method.camelot
              then (⟨[], stored0, inv1 ++ [Backend.camelot]⟩ : ExtractOutcome)
              else stage3 m env all1 (inv1 ++ [Backend.camelot])).result := hd
          rwa [if_pos hm] at hd3
        simp at hd2
      · have hd3 : d ∈ (if m = Method.camelot
            then (⟨[], stored0, inv1 ++ [Backend.camelot]⟩ : ExtractOutcome)
            else stage3 m env all1 (inv1 ++ [Backend.camelot])).result := hd
        rw [if_neg hm] at hd3
        exact stage3_result_mem hall d hd3
  · rw [if_neg hg] at hd
    exact stage3_result_mem hall d hd

theorem extract_result_mem {m : Method} {env : PDFEnv} {stored0 : List DF} {d : DF}
    (hd : d ∈ (extractTables m env stored0).result) : 0 < d.rows.length := by
  unfold extractTables at hd
  by_cases hg : m = Method.auto ∨ m = Method.tabula
  · rw [if_pos hg] at hd
    cases ht : env.tabulaRes with
    | ok ts =>
      rw [ht] at hd
      have hd2 : d ∈ (stage2 m env stored0 (processTabula ts) [Backend.tabula]).result := hd
      exact stage2_result_mem (fun x hx => mem_processTabula hx) d hd2
    | error msg =>
      rw [ht] at hd
      by_cases hm : m = Method.tabula
      · have hd2 : d ∈ (⟨[], stored0, [Backend.tabula]⟩ : ExtractOutcome).result := by
          have hd3 : d ∈ (if m = Method.tabula
              then (⟨[], stored0, [Backend.tabula]⟩ : ExtractOutcome)
              else stage2 m env stored0 [] [Backend.tabula]).result := hd
          rwa [if_pos hm] at hd3
        simp at hd2
      · have hd3 : d ∈ (if m = Method.tabula
            then (⟨[], stored0, [Backend.tabula]⟩ : ExtractOutcome)
            else stage2 m env stored0 [] [Backend.tabula]).result := hd
        rw [if_neg hm] at hd3
        exact stage2_result_mem (fun x hx => by simp at hx) d hd3
  · rw [if_neg hg] at hd
    exact stage2_result_mem (fun x hx => by simp at hx) d hd

/-- C3: after sanitization every row and every column of a (rectangular)
table contains at least one non-empty cell, and every table kept in the
extraction result has at least one data row. -/
theorem sanitize_invariant (t : Table) (ht : Rect t) (m : Method) (env : PDFEnv)
    (s0 : List DF) (d : DF) :
    allRowsNonempty (sanitizeTable t) = true ∧
    allColsNonempty (sanitizeTable t) = true ∧
    (d ∈ (extractTables m env s0).result → 1 ≤ d.rows.length) := by
  refine ⟨?_, ?_, fun hd => extract_result_mem hd⟩
  · apply List.all_eq_true.mpr
    intro r hr
    rcases sanitize_rows_nonempty ht r hr with ⟨c, hc, hcs⟩
    exact List.any_eq_true.mpr ⟨c, hc, hcs⟩
  · apply List.all_eq_true.mpr
    intro j hj
    have hjlt : j < numCols (sanitizeTable t) := List.mem_range.mp hj
    have hle : numCols (sanitizeTable t) ≤ (sanIdx t).length :=
      numCols_le (fun r hr => le_of_eq (sanitize_row_length ht hr))
    exact sanitize_cols_nonempty ht j (lt_of_lt_of_le hjlt hle)

/-- Witness for C3 at a concrete table and a concrete kept table. -/
theorem sanitize_invariant_witness :
    allRowsNonempty (sanitizeTable tEx) = true ∧
    allColsNonempty (sanitizeTable tEx) = true ∧
    1 ≤ (dropnaDF dfEx).rows.length := by
  have h := sanitize_invariant tEx (by unfold Rect; decide) Method.tabula envOkTabula []
    (dropnaDF dfEx)
  exact ⟨h.1, h.2.1, h.2.2 (by decide)⟩

/-! ## Backend orchestration -/

/-- C1: in an `auto` run the backends are invoked in the fixed order tabula,
camelot, pdfplumber, and the run stops invoking further backends as soon as
the accumulated table list is non-empty; in particular, when tabula appends
at least one table, neither camelot nor pdfplumber is invoked. -/
theorem extract_auto_short_circuit (env : PDFEnv) (s0 : List DF) :
    (extractTables Method.auto env s0).invoked =
      if tabulaContribution env = [] then
        if camelotContribution env = [] then
          [Backend.tabula, Backend.camelot, Backend.pdfplumber]
        else [Backend.tabula, Backend.camelot]
      else [Backend.tabula] := by
  cases ht : env.tabulaRes with
  | ok ts =>
    cases hc : env.camelotRes with
    | ok cs =>
      simp only [extractTables, stage2, stage3, tabulaContribution, camelotContribution,
        ht, hc]
      split_ifs <;> simp_all
    | error mc =>
      simp only [extractTables, stage2, stage3, tabulaContribution, camelotContribution,
        ht, hc]
      split_ifs <;> simp_all
  | error mt =>
    cases hc : env.camelotRes with
    | ok cs =>
      simp only [extractTables, stage2, stage3, tabulaContribution, camelotContribution,
        ht, hc]
      split_ifs <;> simp_all
    | error mc =>
      simp only [extractTables, stage2, stage3, tabulaContribution, camelotContribution,
        ht, hc]
      split_ifs <;> simp_all

/-- Counterexample to C4: a forced pdfplumber run whose library interaction
raises after page 1 was processed returns a non-empty list — the `except` at
lines 106-107 only prints, there is no pdfplumber early return, so the run
falls through to `return all_tables` with the tables kept before the raise. -/
theorem forced_plumber_error_counterexample :
    backendRaises envPlumberPartial Backend.pdfplumber = true ∧
    (extractTables Method.pdfplumber envPlumberPartial []).result =
      [dropnaDF (dfOfRaw gridEx)] ∧
    (extractTables Method.pdfplumber envPlumberPartial []).result ≠ [] := by
  have h1 : (extractTables Method.pdfplumber envPlumberPartial []).result =
      [dropnaDF (dfOfRaw gridEx)] := by decide
  refine ⟨rfl, h1, ?_⟩
  rw [h1]
  simp

/-- C4 as amended: with a forced tabula or camelot backend whose call raises,
`extract_tables` returns `[]` and no other backend is invoked; with a forced
pdfplumber backend no other backend is invoked either, but an exception only
stops the page loop, so the run returns exactly the tables processed from the
pages completed before the raise — empty only when the failure came before
any table was kept, e.g. when the document fails to open. -/
theorem forced_backend_error_behavior (env : PDFEnv) (s0 : List DF) :
    (backendRaises env Backend.tabula = true →
      (extractTables Method.tabula env s0).result = [] ∧
      (extractTables Method.tabula env s0).invoked = [Backend.tabula]) ∧
    (backendRaises env Backend.camelot = true →
      (extractTables Method.camelot env s0).result = [] ∧
      (extractTables Method.camelot env s0).invoked = [Backend.camelot]) ∧
    ((extractTables Method.pdfplumber env s0).invoked = [Backend.pdfplumber] ∧
      (extractTables Method.pdfplumber env s0).result =
        processPlumber env.plumberRes.pages) ∧
    (backendRaises env Backend.pdfplumber = true → env.plumberRes.pages = [] →
      (extractTables Method.pdfplumber env s0).result = []) := by
  refine ⟨?_, ?_, ?_, ?_⟩
  · intro hr
    cases ht : env.tabulaRes with
    | ok ts => rw [backendRaises, ht] at hr; simp at hr
    | error msg => simp [extractTables, ht]
  · intro hr
    cases hc : env.camelotRes with
    | ok ts => rw [backendRaises, hc] at hr; simp at hr
    | error msg => simp [extractTables, stage2, hc]
  · simp [extractTables, stage2, stage3]
  · intro hr hp
    simp [extractTables, stage2, stage3, hp, processPlumber]

/-- Witness for C4's amended claim: every backend raises before extracting
anything; forced tabula returns `[]` invoking only tabula, and forced
pdfplumber (which failed at open, no page processed) returns `[]` invoking
only pdfplumber. -/
theorem forced_backend_error_behavior_witness :
    (extractTables Method.tabula envAllFail []).result = [] ∧
    (extractTables Method.tabula envAllFail []).invoked = [Backend.tabula] ∧
    (extractTables Method.pdfplumber envAllFail []).invoked = [Backend.pdfplumber] ∧
    (extractTables Method.pdfplumber envAllFail []).result = [] := by
  have h := forced_backend_error_behavior envAllFail []
  exact ⟨(h.1 rfl).1, (h.1 rfl).2, h.2.2.1.1, h.2.2.2 rfl rfl⟩

/-- C10: `extract_tables` assigns `self.tables` only on its normal completion
path; on the forced-tabula and forced-camelot early-return paths it returns
`[]` while leaving `self.tables` at its prior value, so a later
`save_to_excel` on the same extractor would not take the no-table early
return but would write the previously stored tables. -/
theorem extract_error_keeps_stored (env : PDFEnv) (s0 : List DF) :
    (∀ e, env.tabulaRes = Except.error e →
      (extractTables Method.tabula env s0).result = [] ∧
      (extractTables Method.tabula env s0).stored = s0) ∧
    (∀ e, env.camelotRes = Except.error e →
      (extractTables Method.camelot env s0).result = [] ∧
      (extractTables Method.camelot env s0).stored = s0) ∧
    (∀ m, (extractTables m env s0).stored = (extractTables m env s0).result ∨
      ((extractTables m env s0).stored = s0 ∧ (extractTables m env s0).result = [])) ∧
    (∀ w, s0 ≠ [] → saveToExcel w s0 ≠ SaveResult.noTables) := by
  refine ⟨?_, ?_, ?_, ?_⟩
  · intro e he
    simp [extractTables, he]
  · intro e he
    simp [extractTables, stage2, he]
  · intro m
    cases m <;> cases ht : env.tabulaRes <;> cases hc : env.camelotRes <;>
      cases hp : env.plumberRes <;>
      simp only [extractTables, stage2, stage3, ht, hc, hp] <;>
      split_ifs <;> simp_all
  · intro w hne
    unfold saveToExcel
    rcases s0 with _ | ⟨d, rest⟩
    · simp at hne
    · cases w <;> simp

/-- Witness for C10: a failing forced tabula run on an extractor that already
holds one table. -/
theorem extract_error_keeps_stored_witness :
    (extractTables Method.tabula envAllFail [dfEx]).result = [] ∧
    (extractTables Method.tabula envAllFail [dfEx]).stored = [dfEx] ∧
    saveToExcel true [dfEx] ≠ SaveResult.noTables := by
  have h := extract_error_keeps_stored envAllFail [dfEx]
  refine ⟨(h.1 "tabula down" rfl).1, (h.1 "tabula down" rfl).2, h.2.2.2 true (by simp)⟩

/-! ## The workbook writer -/

/-- C9: with an empty stored table list, `save_to_excel` returns `False`
without touching the output file, and that early return happens exactly when
the list is empty. -/
theorem save_empty_no_write (w : Bool) (dfs : List DF) :
    (saveToExcel w dfs = SaveResult.noTables ↔ dfs = []) ∧
    saveReturn SaveResult.noTables = false ∧
    touchesFile SaveResult.noTables = false := by
  refine ⟨?_, rfl, rfl⟩
  unfold saveToExcel
  rcases dfs with _ | ⟨d, rest⟩
  · simp
  · cases w <;> simp

/-- Counterexample to C5: the first worksheet row is the injected column-label
header row, not the table's first data row (pandas `to_excel` defaults to
`header=True`; only `index=False` is passed). -/
theorem writer_header_counterexample :
    (writeSheet 0 dfHeaderEx).grid.getD 0 [] ≠ (sanitizeDF dfHeaderEx).rows.getD 0 [] ∧
    (writeSheet 0 dfHeaderEx).grid.getD 0 [] =
      [some (PyVal.text "0"), some (PyVal.text "1")] ∧
    (sanitizeDF dfHeaderEx).rows.getD 0 [] =
      [some (PyVal.text "a"), some (PyVal.text "b")] := by
  have h1 : (writeSheet 0 dfHeaderEx).grid.getD 0 [] =
      [some (PyVal.text "0"), some (PyVal.text "1")] := rfl
  have h2 : (sanitizeDF dfHeaderEx).rows.getD 0 [] =
      [some (PyVal.text "a"), some (PyVal.text "b")] := rfl
  refine ⟨?_, h1, h2⟩
  rw [h1, h2]
  decide

/-- C5 as amended: the writer writes the sanitized table starting at the
top-left cell with no index column, but the first worksheet row is a header
row holding the table's column labels, and each data row `j` lands on
worksheet row `j + 2` (0-based `j + 1`): the first data row is the second row
of the sheet, not the first. -/
theorem writer_header_row (i : Nat) (df : DF) (j : Nat) :
    (writeSheet i df).grid.length = (sanitizeDF df).rows.length + 1 ∧
    (writeSheet i df).grid.getD 0 [] = (sanitizeDF df).cols.map (fun c => some c) ∧
    (writeSheet i df).grid.getD (j + 1) [] = (sanitizeDF df).rows.getD j [] ∧
    (writeSheet i df).name = ("Table_" ++ toString (i + 1)).take 31 := by
  refine ⟨?_, ?_, ?_, ?_⟩
  · simp [writeSheet]
  · simp [writeSheet]
  · simp [writeSheet, List.getD_cons_succ]
  · simp [writeSheet, sheetName]

theorem foldl_skip_eq_filter (p : Cell → Bool) (f : Nat → Cell → Nat) :
    ∀ (cells : List Cell) (a : Nat),
      cells.foldl (fun a c => if p c then f a c else a) a = (cells.filter p).foldl f a
  | [], a => rfl
  | c :: cs, a => by
    by_cases h : p c
    · simp only [List.foldl_cons, List.filter_cons, h, if_true]
      exact foldl_skip_eq_filter p f cs (f a c)
    · simp only [List.foldl_cons, List.filter_cons, h, if_false, Bool.false_eq_true]
      exact foldl_skip_eq_filter p f cs a

/-- The running maximum of lines 128-132 equals the maximum printed length
over the truthy cells of the column. -/
theorem codeColMax_eq_truthy (cells : List Cell) :
    codeColMax cells = truthyColMax cells :=
  foldl_skip_eq_filter cellTruthy (fun a c => max a (displayLen c)) cells 0

theorem foldl_colMax_textOnly (cells : List Cell) (h : textOnly cells = true) :
    ∀ a : Nat,
      cells.foldl (fun a c => if cellTruthy c then max a (displayLen c) else a) a =
      cells.foldl (fun a c => max a (displayLen c)) a := by
  induction cells with
  | nil => intro a; rfl
  | cons c cs ih =>
    intro a
    simp only [textOnly, List.all_cons, Bool.and_eq_true] at h
    simp only [List.foldl_cons]
    rw [ih h.2]
    congr 1
    cases c with
    | none => simp [cellTruthy, displayLen]
    | some v =>
      cases v with
      | text s =>
        by_cases hs : s == ""
        · have hs2 : s = "" := by simpa using hs
          subst hs2
          simp [cellTruthy, pyTruthy, displayLen, pyStr]
        · simp [cellTruthy, pyTruthy, hs, displayLen]
      | intv n => simp [textOnly] at h

/-- On a text-only column the code's running maximum is the plain maximum
printed length. -/
theorem codeColMax_eq_spec_of_textOnly (cells : List Cell)
    (h : textOnly cells = true) : codeColMax cells = specColMax cells :=
  foldl_colMax_textOnly cells h 0

theorem getD_map_range (f : Nat → Nat) (n j : Nat) (h : j < n) :
    ((List.range n).map f).getD j 0 = f j := by
  rw [List.getD_eq_getElem _ _ (by simpa using h)]
  simp

/-- Counterexample to C7: a column whose label and data cell are the number
zero — falsy for `if cell.value:` yet printing as "0" — gets width 2 from the
code, not the claimed `min(max printed-text length + 2, 50) = 3`. -/
theorem writer_width_counterexample :
    (writeSheet 0 dfZeroEx).colWidths = [2] ∧
    (List.range (numCols (writeSheet 0 dfZeroEx).grid)).map
      (fun j => min (specColMax (colCells (writeSheet 0 dfZeroEx).grid j) + 2) 50) = [3] ∧
    (writeSheet 0 dfZeroEx).colWidths ≠
      (List.range (numCols (writeSheet 0 dfZeroEx).grid)).map
        (fun j => min (specColMax (colCells (writeSheet 0 dfZeroEx).grid j) + 2) 50) := by
  have h1 : (writeSheet 0 dfZeroEx).colWidths = [2] := by decide
  have h2 : (List.range (numCols (writeSheet 0 dfZeroEx).grid)).map
      (fun j => min (specColMax (colCells (writeSheet 0 dfZeroEx).grid j) + 2) 50) = [3] := by
    decide
  refine ⟨h1, h2, ?_⟩
  rw [h1, h2]
  simp

/-- C7 as amended: every column of a written worksheet gets display width
`min(m + 2, 50)` where `m` is the maximum printed-text length among the
column's Python-truthy cells — `if cell.value:` skips missing values, empty
strings and numeric zeros; on a column without numeric cells the skipped
values print with length zero, so there the width is
`min(max printed-text length among all the column's cells + 2, 50)` as
originally claimed. -/
theorem writer_col_widths_amended (i : Nat) (df : DF) :
    (writeSheet i df).colWidths =
      (List.range (numCols (writeSheet i df).grid)).map
        (fun j => min (truthyColMax (colCells (writeSheet i df).grid j) + 2) 50) ∧
    (∀ j, j < numCols (writeSheet i df).grid →
      textOnly (colCells (writeSheet i df).grid j) = true →
      (writeSheet i df).colWidths.getD j 0 =
        min (specColMax (colCells (writeSheet i df).grid j) + 2) 50) := by
  constructor
  · have h : ∀ cells, codeColMax cells = truthyColMax cells := codeColMax_eq_truthy
    simp only [writeSheet, h]
  · intro j hj htext
    have hw : (writeSheet i df).colWidths =
        (List.range (numCols (writeSheet i df).grid)).map
          (fun j => min (codeColMax (colCells (writeSheet i df).grid j) + 2) 50) := rfl
    rw [hw, getD_map_range _ _ _ hj, codeColMax_eq_spec_of_textOnly _ htext]

/-- Witness for C7's amended claim: a concrete text-only frame where the
width equals the originally claimed formula. -/
theorem writer_col_widths_amended_witness :
    (writeSheet 0 dfEx).colWidths.getD 0 0 =
      min (specColMax (colCells (writeSheet 0 dfEx).grid 0) + 2) 50 := by
  have h := writer_col_widths_amended 0 dfEx
  exact h.2 0 (by decide) (by decide)

/-! ## Dependency prober and CLI driver -/

/-- Counterexample to C8: with tabula missing, only four status lines are
printed, not one per module — a failing import prints no status line of its
own, it only joins the aggregated missing list. -/
theorem dep_status_lines_counterexample :
    (checkDependencies depsMissingTabula).statusLines.length = 4 ∧
    modulesTable.length = 5 ∧
    (checkDependencies depsMissingTabula).statusLines.length ≠ modulesTable.length ∧
    (checkDependencies depsMissingTabula).missing ≠ [] := by
  refine ⟨?_, ?_, ?_, ?_⟩ <;> decide

/-- C8 as amended: the prober attempts all five modules, prints a status line
per successfully loaded module (so the status-line count plus the missing
count is five), and when any module failed to load it reports the aggregated
missing list with two installation suggestions and exits with status 1 before
any extraction is attempted. -/
theorem dependency_check_behavior (d : Deps) (fe : Bool) (m : Method) (pe : PDFEnv)
    (w : Bool) (hm : (checkDependencies d).missing ≠ []) :
    (checkDependencies d).statusLines.length =
      (modulesTable.filter (fun mp => depAvailable d mp.1)).length ∧
    (checkDependencies d).statusLines.length + (checkDependencies d).missing.length =
      modulesTable.length ∧
    (checkDependencies d).exitCode = some 1 ∧
    (checkDependencies d).suggestions.length = 2 ∧
    (mainRun ⟨d, fe, m, pe, w⟩).exitCode = 1 ∧
    (mainRun ⟨d, fe, m, pe, w⟩).extractionRan = false := by
  have hmain : mainRun ⟨d, fe, m, pe, w⟩ = ⟨1, false, none, false⟩ := by
    unfold mainRun
    simp [hm]
  refine ⟨?_, ?_, ?_, ?_, by rw [hmain], by rw [hmain]⟩ <;>
  · rcases d with ⟨a, b, c, e2, f⟩
    revert hm
    cases a <;> cases b <;> cases c <;> cases e2 <;> cases f <;> decide

/-- Witness for C8's amended claim with tabula missing. -/
theorem dependency_check_behavior_witness :
    (checkDependencies depsMissingTabula).exitCode = some 1 ∧
    (checkDependencies depsMissingTabula).suggestions.length = 2 ∧
    (mainRun ⟨depsMissingTabula, true, Method.auto, envAllFail, true⟩).exitCode = 1 ∧
    (mainRun ⟨depsMissingTabula, true, Method.auto, envAllFail, true⟩).extractionRan = false := by
  have h := dependency_check_behavior depsMissingTabula true Method.auto envAllFail true
    (by decide)
  exact ⟨h.2.2.1, h.2.2.2.1, h.2.2.2.2.1, h.2.2.2.2.2⟩

/-- C6: once dependencies import and the input file exists, a run that finds
at least one table exits with status 0 whatever the write outcome — a failed
write is recorded and `save_to_excel` returns `False`, but the status stays
0 — while a run that finds no table prints the try-another-method suggestion
and exits with status 1. -/
theorem main_exit_codes (e : MainEnv) (hdeps : (checkDependencies e.deps).missing = [])
    (hfile : e.fileExists = true) :
    ((extractTables e.method e.pdfEnv []).result ≠ [] →
      (mainRun e).exitCode = 0 ∧
      (mainRun e).saveRes =
        some (saveToExcel e.writeOk (extractTables e.method e.pdfEnv []).result)) ∧
    ((extractTables e.method e.pdfEnv []).result ≠ [] → e.writeOk = false →
      (mainRun e).saveRes = some SaveResult.failed ∧ (mainRun e).exitCode = 0 ∧
      saveReturn SaveResult.failed = false) ∧
    ((extractTables e.method e.pdfEnv []).result = [] →
      (mainRun e).exitCode = 1 ∧ (mainRun e).printedSuggestion = true) := by
  refine ⟨?_, ?_, ?_⟩
  · intro hne
    unfold mainRun
    simp [hdeps, hfile, hne]
  · intro hne hw
    unfold mainRun
    simp only [hdeps, hfile, hne]
    have hsave : saveToExcel e.writeOk (extractTables e.method e.pdfEnv []).result =
        SaveResult.failed := by
      unfold saveToExcel
      rw [hw]
      simp [List.isEmpty_iff, hne]
    refine ⟨?_, ?_, rfl⟩ <;> simp [hsave, hne]
  · intro hz
    unfold mainRun
    simp [hdeps, hfile, hz]

/-- Witness for C6: a run that finds one table but cannot write the file
still exits 0 with a failed save. -/
theorem main_exit_codes_witness :
    (mainRun envMainEx).exitCode = 0 ∧
    (mainRun envMainEx).saveRes = some SaveResult.failed ∧
    saveReturn SaveResult.failed = false := by
  have h := main_exit_codes envMainEx (by decide) rfl
  have h2 := h.2.1 (by decide) rfl
  exact ⟨h2.2.1, h2.1, h2.2.2⟩

end PDFX
